import Mathlib

/-!
Shallow embedding of `src/routing/v1/geo.py` from the GeoRagBackend
repository: angle helpers, the token-bucket rate limiter, the retrying
HTTP gateway, reverse geocoding, Mapillary panorama scoring, the Vincenty
sigma iteration and request validation.

Floating-point arithmetic of the source is modelled with exact arithmetic:
`ℚ` where only field operations and comparisons occur, `ℝ` where
trigonometric functions appear.  Python's `%` on floats with a positive
modulus is modelled as `x - m * ⌊x / m⌋`.
-/

namespace GeoRag

/-- Python float `%` with a positive modulus `m`: `x % m = x - m * ⌊x / m⌋`
(the result carries the sign of the modulus). -/
noncomputable def fmod (x m : ℝ) : ℝ := x - m * (⌊x / m⌋ : ℤ)

/-- `normalize_angle_deg` (geo.py lines 43-46): normalize an angle to
`[0, 360)` via `angle % 360.0`. -/
noncomputable def normalize_angle_deg (angle : ℝ) : ℝ := fmod angle 360

/-- `wrap_delta_deg` (geo.py lines 49-55): wrap an angle delta via
`(delta + 180.0) % 360.0 - 180.0`, remapping an exact `-180.0` to `180.0`. -/
noncomputable def wrap_delta_deg (delta : ℝ) : ℝ :=
  let wrapped := fmod (delta + 180) 360 - 180
  if wrapped = -180 then 180 else wrapped

/-- Python `math.atan2(y, x)`: quadrant-aware arctangent. -/
noncomputable def atan2 (y x : ℝ) : ℝ :=
  if 0 < x then Real.arctan (y / x)
  else if x < 0 then
    (if 0 ≤ y then Real.arctan (y / x) + Real.pi else Real.arctan (y / x) - Real.pi)
  else
    (if 0 < y then Real.pi / 2 else if y < 0 then -(Real.pi / 2) else 0)

/-- Python `math.radians`. -/
noncomputable def radians (d : ℝ) : ℝ := d * Real.pi / 180

/-- Python `math.degrees`. -/
noncomputable def degrees (r : ℝ) : ℝ := r * 180 / Real.pi

/-- `BoundingBox` (geo.py lines 136-148): x, y, w, h in pixels. -/
structure BoundingBox where
  x : ℝ
  y : ℝ
  w : ℝ
  h : ℝ

/-- `bbox_center` (geo.py lines 217-222): the `(u, v)` center of a box. -/
noncomputable def bbox_center (bbox : BoundingBox) : ℝ × ℝ :=
  (bbox.x + bbox.w / 2, bbox.y + bbox.h / 2)

/-- `bearing_from_bbox` (geo.py lines 225-261): absolute bearing from the
pixel column `u` using intrinsics (`fx`/`cx`, pinhole yaw via `atan2`) when
both are present, else the HFOV linear heuristic
`delta_yaw = (u - image_width/2) * (hfov_deg / image_width)`, else an error.
The result is `normalize_angle_deg (camera_heading_deg + delta_yaw)`. -/
noncomputable def bearing_from_bbox (u : ℝ) (image_width : ℕ)
    (hfov_deg : Option ℝ) (camera_heading_deg : ℝ)
    (cx : Option ℝ := none) (fx : Option ℝ := none) : Except String ℝ :=
  match fx, cx with
  | some fxv, some cxv =>
      Except.ok (normalize_angle_deg
        (camera_heading_deg + degrees (atan2 (u - cxv) fxv)))
  | _, _ =>
      match hfov_deg with
      | some hfov =>
          let center : ℝ := (image_width : ℝ) / 2
          let degrees_per_pixel : ℝ := hfov / (image_width : ℝ)
          Except.ok (normalize_angle_deg
            (camera_heading_deg + (u - center) * degrees_per_pixel))
      | none => Except.error "Either fx/cx or hfov_deg must be provided"

/-- Configuration of `RateLimiter` (geo.py lines 58-63): token refill rate
per second and bucket capacity. -/
structure RateLimiterCfg where
  rate : ℚ
  capacity : ℚ
deriving DecidableEq

/-- Mutable state of `RateLimiter`: the `_tokens` and `_timestamps` dicts
(geo.py lines 65-67), modelled as maps from keys to optional values. -/
structure LimiterState where
  tokens : String → Option ℚ
  timestamps : String → Option ℚ

/-- The empty dicts created by `RateLimiter.__post_init__`. -/
def initLimiterState : LimiterState := ⟨fun _ => none, fun _ => none⟩

/-- Dict assignment `d[key] = v`. -/
def updateMap (f : String → Option ℚ) (key : String) (v : ℚ) :
    String → Option ℚ :=
  fun k => if k = key then some v else f k

/-- One `acquire` invocation described by its key, requested token count and
the value of `time.monotonic()` observed inside the critical section. -/
structure AcquireCall where
  key : String
  tokens : ℚ
  now : ℚ
deriving DecidableEq

/-- Result of one iteration of the `acquire` wait loop: either the debit
succeeded, or the coroutine sleeps for `wait_for` seconds and retries. -/
inductive AcquireOutcome where
  | granted
  | waitFor (seconds : ℚ)
deriving DecidableEq

/-- `RateLimiter.acquire` (geo.py lines 70-92): the capacity guard followed
by one iteration of the wait loop.  The guard (`tokens > capacity` raises
`ValueError`) runs before any state is read or written.  A passing
iteration refills the bucket clamped to capacity; if enough tokens are
available it debits them (`granted`), otherwise it stores the clamped value,
stores `now`, and sleeps for `wait_for` seconds before retrying. -/
def acquire_step (rl : RateLimiterCfg) (st : LimiterState) (c : AcquireCall) :
    LimiterState × Except String AcquireOutcome :=
  if rl.capacity < c.tokens then
    (st, Except.error "tokens requested exceed bucket capacity")
  else
    let last := (st.timestamps c.key).getD c.now
    let stored := (st.tokens c.key).getD rl.capacity
    let available := min rl.capacity (stored + (c.now - last) * rl.rate)
    if c.tokens ≤ available then
      (⟨updateMap st.tokens c.key (available - c.tokens),
        updateMap st.timestamps c.key c.now⟩,
       Except.ok AcquireOutcome.granted)
    else
      (⟨updateMap st.tokens c.key available,
        updateMap st.timestamps c.key c.now⟩,
       Except.ok (AcquireOutcome.waitFor
         (if rl.rate ≠ 0 then (c.tokens - available) / rl.rate else 1)))

/-- A sequence of `acquire` iterations threaded through the limiter state. -/
def acquire_run (rl : RateLimiterCfg) (st : LimiterState) :
    List AcquireCall → LimiterState
  | [] => st
  | c :: rest => acquire_run rl (acquire_step rl st c).1 rest

/-- Invariant: every stored per-key token count lies in `[0, capacity]`. -/
def TokensInRange (rl : RateLimiterCfg) (st : LimiterState) : Prop :=
  ∀ k v, st.tokens k = some v → 0 ≤ v ∧ v ≤ rl.capacity

/-- All stored refill timestamps are at most `t`: `time.monotonic()` never
runs backwards, so every later `acquire` observes `now` at least this. -/
def TimestampsLE (st : LimiterState) (t : ℚ) : Prop :=
  ∀ k u, st.timestamps k = some u → u ≤ t

/-- `MAX_HTTP_RETRIES` (geo.py line 36). -/
def MAX_HTTP_RETRIES : ℕ := 2

/-- `HTTP_BACKOFF_SECONDS` (geo.py line 37). -/
def HTTP_BACKOFF_SECONDS : ℚ := 1/2

/-- Observable actions of `http_get`: a rate-limiter `acquire` with the
caller-supplied key, the `n`-th outbound GET attempt, or a backoff sleep. -/
inductive HttpEvent where
  | acquire (key : String)
  | attemptCall (n : ℕ)
  | sleep (seconds : ℚ)
deriving DecidableEq

/-- The `for attempt in range(MAX_HTTP_RETRIES + 1)` loop of `http_get`
(geo.py lines 119-133).  `outcome n` is the result of the `n`-th outbound
GET: `.ok` a response or `.error` for a raised timeout, HTTP-status or
transport error.  The fuel argument is `MAX_HTTP_RETRIES + 1 - attempt`,
the number of attempts the range still allows; `fuel = 0` is the
unreachable fall-through `raise RuntimeError` after the loop. -/
def http_get_loop {α : Type} (outcome : ℕ → Except String α) (key : String) :
    ℕ → ℕ → List HttpEvent × Except String α
  | _, 0 => ([], Except.error "HTTP GET failed without exception")
  | attempt, fuel + 1 =>
      let ev := [HttpEvent.acquire key, HttpEvent.attemptCall attempt]
      match outcome attempt with
      | Except.ok r => (ev, Except.ok r)
      | Except.error e =>
          if fuel = 0 then (ev, Except.error e)
          else
            let rest := http_get_loop outcome key (attempt + 1) fuel
            (ev ++ HttpEvent.sleep (HTTP_BACKOFF_SECONDS * 2 ^ attempt)
               :: rest.1,
             rest.2)

/-- `http_get` (geo.py lines 109-133): rate-limited GET with bounded
retries, returning the trace of its actions and its result. -/
def http_get {α : Type} (outcome : ℕ → Except String α) (key : String) :
    List HttpEvent × Except String α :=
  http_get_loop outcome key 0 (MAX_HTTP_RETRIES + 1)

/-- Number of outbound GET attempts recorded in a trace. -/
def countAttempts : List HttpEvent → ℕ
  | [] => 0
  | HttpEvent.attemptCall _ :: rest => countAttempts rest + 1
  | _ :: rest => countAttempts rest

/-- Every GET attempt in the trace is immediately preceded by an `acquire`
of the given rate key. -/
def acquire_before_each_attempt (key : String) : List HttpEvent → Bool
  | [] => true
  | HttpEvent.acquire k :: HttpEvent.attemptCall _ :: rest =>
      (k == key) && acquire_before_each_attempt key rest
  | HttpEvent.attemptCall _ :: _ => false
  | _ :: rest => acquire_before_each_attempt key rest

/-- `AddressInfo` (geo.py lines 188-190): optional display string plus a
component map, modelled as an association list. -/
structure AddressInfo where
  display_name : Option String
  components : List (String × String)
deriving DecidableEq

/-- A decoded Nominatim reverse-geocoding body: its `display_name` field and
its `address` object when present. -/
structure NominatimPayload where
  display_name : Option String
  address : Option (List (String × String))
deriving DecidableEq

/-- The HTTP gateway's behaviour as observed by `reverse_geocode`: either
`http_get` raised (timeout, transport error or non-2xx status, after
exhausting its retries), or it returned a 2xx response whose body decodes
to `some` payload — or to `none` when `response.json()` raises because the
body is malformed. -/
inductive UpstreamResult where
  | failure (msg : String)
  | success (body : Option NominatimPayload)
deriving DecidableEq

/-- `reverse_geocode` (geo.py lines 350-378).  Only the `http_get` call sits
inside the `try`: an exception from it yields the degraded `AddressInfo`
with the diagnostic `error` component.  `response.json()` runs after the
`try`/`except`, so a malformed body raises out of the function. -/
def reverse_geocode : UpstreamResult → Except String AddressInfo
  | UpstreamResult.failure msg =>
      Except.ok ⟨none, [("error", msg)]⟩
  | UpstreamResult.success none =>
      Except.error "response body is not valid JSON"
  | UpstreamResult.success (some payload) =>
      Except.ok ⟨payload.display_name, payload.address.getD []⟩

/-- A Mapillary image item as consumed by `_mapillary_score` (geo.py lines
508-517): optional compass angle, optional `geometry.coordinates` pair
`(lon, lat)`, optional thumbnail URL. -/
structure MapillaryItem where
  compass_angle : Option ℝ
  coordinates : Option (ℝ × ℝ)
  thumb_1024_url : Option String

/-- `_haversine_distance` (geo.py lines 520-528). -/
noncomputable def haversine_distance (lat1 lon1 lat2 lon2 : ℝ) : ℝ :=
  let r : ℝ := 6371000
  let phi1 := radians lat1
  let phi2 := radians lat2
  let dphi := radians (lat2 - lat1)
  let dlambda := radians (lon2 - lon1)
  let a := Real.sin (dphi / 2) ^ 2
    + Real.cos phi1 * Real.cos phi2 * Real.sin (dlambda / 2) ^ 2
  let c := 2 * atan2 (Real.sqrt a) (Real.sqrt (1 - a))
  r * c

/-- `_mapillary_score` (geo.py lines 508-517): absolute wrapped heading
mismatch plus haversine distance weighted at 5 m per degree; a missing
compass angle scores `float("inf")`, modelled as `⊤` in `WithTop ℝ`. -/
noncomputable def mapillary_score (item : MapillaryItem)
    (bearing_deg lat lon : ℝ) : WithTop ℝ :=
  let coords := item.coordinates.getD (lon, lat)
  match item.compass_angle with
  | none => (⊤ : WithTop ℝ)
  | some compass =>
      ((|wrap_delta_deg (bearing_deg - compass)|
        + haversine_distance lat lon coords.2 coords.1 / 5 : ℝ) : WithTop ℝ)

/-- Python `min(items, key=f)` on the nonempty list `best :: rest`: the
current best is replaced only on a strictly smaller key, so the earliest
minimum wins. -/
noncomputable def minBy {β γ : Type} [LinearOrder γ] (f : β → γ) :
    β → List β → β
  | best, [] => best
  | best, x :: xs => if f x < f best then minBy f x xs else minBy f best xs

/-- The `mapillary` branch of `choose_panorama` (geo.py lines 492-498): with
a nonempty candidate list, select the minimum-score candidate. -/
noncomputable def mapillary_choose (bearing_deg lat lon : ℝ) :
    List MapillaryItem → Option MapillaryItem
  | [] => none
  | x :: xs =>
      some (minBy (fun item => mapillary_score item bearing_deg lat lon) x xs)

/-- `SUPPORTED_PROVIDERS` (geo.py line 40). -/
def SUPPORTED_PROVIDERS : List String := ["google", "mapillary"]

/-- The provider-normalization loop of `validate_fov_or_intrinsics`
(geo.py lines 172-177): lowercase each entry and append it to `normalized`
when it names a supported provider not already collected. -/
def normalize_providers_aux (normalized : List String) :
    List String → List String
  | [] => normalized
  | provider :: rest =>
      let p := provider.toLower
      if p ∈ SUPPORTED_PROVIDERS ∧ p ∉ normalized then
        normalize_providers_aux (normalized ++ [p]) rest
      else
        normalize_providers_aux normalized rest

/-- The normalized `provider_priority` stored back by the root validator
(geo.py line 178). -/
def normalize_providers (providers : List String) : List String :=
  normalize_providers_aux [] providers

/-- Keep the first occurrence of each element, dropping later duplicates
(the order-preserving deduplication the normalization loop implements). -/
def dedupFirst : List String → List String
  | [] => []
  | x :: xs => x :: dedupFirst (xs.filter (fun y => y ≠ x))
  termination_by l => l.length
  decreasing_by
    simp_wf
    exact Nat.lt_succ_of_le (List.length_filter_le _ _)

/-- `GeoEstimateRequest` (geo.py lines 151-165): the request model's fields
before validation (the bbox's four unconstrained numbers inlined). -/
structure GeoEstimateRequest where
  image_width : Int
  image_height : Int
  hfov_deg : Option ℚ
  camera_lat : ℚ
  camera_lon : ℚ
  camera_heading_deg : ℚ
  bbox_x : ℚ
  bbox_y : ℚ
  bbox_w : ℚ
  bbox_h : ℚ
  fx : Option ℚ
  fy : Option ℚ
  cx : Option ℚ
  cy : Option ℚ
  assumed_distance_m : Option ℚ
  provider_priority : List String
  radius_m : Option ℚ
deriving DecidableEq

/-- Pydantic v1 per-field constraints of `GeoEstimateRequest` (geo.py lines
152-165): `image_width`, `image_height` positive; `hfov_deg ∈ (0, 360)` and
`fx`, `fy`, `assumed_distance_m`, `radius_m` positive when present (`cx`,
`cy`, the camera pose and the bbox numbers are unconstrained).  Field
validation runs before the root validator. -/
def field_constraints_ok (r : GeoEstimateRequest) : Bool :=
  decide (0 < r.image_width) && decide (0 < r.image_height)
  && (match r.hfov_deg with
      | none => true
      | some h => decide (0 < h) && decide (h < 360))
  && (match r.fx with | none => true | some v => decide (0 < v))
  && (match r.fy with | none => true | some v => decide (0 < v))
  && (match r.assumed_distance_m with | none => true | some v => decide (0 < v))
  && (match r.radius_m with | none => true | some v => decide (0 < v))

/-- Construction of a `GeoEstimateRequest`: pydantic field validation
followed by the `validate_fov_or_intrinsics` root validator (geo.py lines
167-179), which raises when neither `hfov_deg` nor both `fx` and `cx` are
given, and otherwise stores the normalized `provider_priority`. -/
def validate_request (r : GeoEstimateRequest) :
    Except String GeoEstimateRequest :=
  if field_constraints_ok r = false then
    Except.error "field validation failed"
  else if r.hfov_deg = none ∧ (r.fx = none ∨ r.cx = none) then
    Except.error "Either hfov_deg or both fx and cx must be provided"
  else
    Except.ok
      { r with provider_priority := normalize_providers r.provider_priority }

/-- A well-formed request used to instantiate the validation theorems. -/
def sampleRequest : GeoEstimateRequest :=
  { image_width := 1920, image_height := 1080, hfov_deg := some 120,
    camera_lat := 10, camera_lon := 20, camera_heading_deg := 45,
    bbox_x := 0, bbox_y := 0, bbox_w := 100, bbox_h := 200,
    fx := none, fy := none, cx := none, cy := none,
    assumed_distance_m := some 15,
    provider_priority := ["Google", "mapillary", "google", "bing"],
    radius_m := some 50 }

/-- `EARTH_SEMI_MAJOR_AXIS_M` (geo.py line 29). -/
noncomputable def EARTH_SEMI_MAJOR_AXIS_M : ℝ := 6378137

/-- `EARTH_FLATTENING` (geo.py line 30). -/
noncomputable def EARTH_FLATTENING : ℝ := 1 / 298.257223563

/-- `EARTH_SEMI_MINOR_AXIS_M` (geo.py line 31). -/
noncomputable def EARTH_SEMI_MINOR_AXIS_M : ℝ :=
  EARTH_SEMI_MAJOR_AXIS_M * (1 - EARTH_FLATTENING)

/-- One evaluation of `delta_sigma` in the σ-loop of
`project_point_geodesic` (geo.py lines 302-317), as a function of the
current iterate `sigma`. -/
noncomputable def delta_sigma (B sigma1 sigma : ℝ) : ℝ :=
  let cos2_sigma_m := Real.cos (2 * sigma1 + sigma)
  let sin_sigma := Real.sin sigma
  let cos_sigma := Real.cos sigma
  B * sin_sigma * (cos2_sigma_m + B / 4 *
    (cos_sigma * (-1 + 2 * cos2_sigma_m * cos2_sigma_m)
      - B / 6 * cos2_sigma_m * (-3 + 4 * sin_sigma * sin_sigma)
        * (-3 + 4 * cos2_sigma_m * cos2_sigma_m)))

/-- The iterates of the σ-loop (geo.py lines 299-319): `sigma` starts at
`s0 = distance_m / (b * A)` and each pass recomputes
`sigma = s0 + delta_sigma(sigma_prev)`. -/
noncomputable def sigma_iter (s0 B sigma1 : ℝ) : ℕ → ℝ
  | 0 => s0
  | n + 1 => s0 + delta_sigma B sigma1 (sigma_iter s0 B sigma1 n)

/-- The σ-loop's only exit condition, after computing iterate `n + 1`:
`abs(sigma - sigma_prev) <= 1e-12`.  The `while` at geo.py line 301
consults no iteration counter and the module defines no non-convergence
error, so when this predicate holds for no `n` the loop never ends. -/
noncomputable def sigma_loop_exits (s0 B sigma1 : ℝ) (n : ℕ) : Prop :=
  |sigma_iter s0 B sigma1 (n + 1) - sigma_iter s0 B sigma1 n| ≤ 1e-12

theorem fmod_nonneg (x m : ℝ) (hm : 0 < m) : 0 ≤ fmod x m := by
  have h := Int.fract_nonneg (x / m)
  have hfr : fmod x m = m * Int.fract (x / m) := by
    unfold fmod Int.fract
    field_simp
  rw [hfr]
  positivity

theorem fmod_lt (x m : ℝ) (hm : 0 < m) : fmod x m < m := by
  have h := Int.fract_lt_one (x / m)
  have hfr : fmod x m = m * Int.fract (x / m) := by
    unfold fmod Int.fract
    field_simp
  rw [hfr]
  calc m * Int.fract (x / m) < m * 1 := by
        exact (mul_lt_mul_left hm).mpr h
    _ = m := mul_one m

theorem fmod_nonneg_witness : 0 ≤ fmod 5 360 ∧ (0:ℝ) < 360 :=
  ⟨fmod_nonneg 5 360 (by norm_num), by norm_num⟩

theorem fmod_lt_witness : fmod 5 360 < 360 :=
  fmod_lt 5 360 (by norm_num)

/-- Claim C8: for every real input `d`, `wrap_delta_deg d` lies in the
half-open interval `(-180, 180]`; the computation is
`((d + 180) mod 360) - 180` with an exact intermediate `-180` remapped to
`+180`; in particular `wrap_delta_deg 180 = 180` and
`wrap_delta_deg (-180) = 180`. -/
theorem wrap_delta_deg_range :
    (∀ d : ℝ, -180 < wrap_delta_deg d ∧ wrap_delta_deg d ≤ 180)
    ∧ wrap_delta_deg 180 = 180 ∧ wrap_delta_deg (-180) = 180 := by
  have hmain : ∀ d : ℝ, -180 < wrap_delta_deg d ∧ wrap_delta_deg d ≤ 180 := by
    intro d
    have h0 : 0 ≤ fmod (d + 180) 360 := fmod_nonneg _ 360 (by norm_num)
    have h1 : fmod (d + 180) 360 < 360 := fmod_lt _ 360 (by norm_num)
    unfold wrap_delta_deg
    by_cases hcase : fmod (d + 180) 360 - 180 = -180
    · simp only [hcase, if_pos rfl]
      norm_num
    · simp only [if_neg hcase]
      constructor
      · rcases lt_or_eq_of_le h0 with hlt | heq
        · linarith
        · exact absurd (by linarith : fmod (d + 180) 360 - 180 = -180) hcase
      · linarith
  refine ⟨hmain, ?_, ?_⟩
  · have hfloor : (⌊(180 + 180 : ℝ) / 360⌋ : ℤ) = 1 := by
      norm_num
    unfold wrap_delta_deg fmod
    rw [hfloor]
    norm_num
  · have hfloor : (⌊(-180 + 180 : ℝ) / 360⌋ : ℤ) = 0 := by
      norm_num
    unfold wrap_delta_deg fmod
    rw [hfloor]
    norm_num

theorem bearing_c1_eval :
    bearing_from_bbox 50 200 (some 90) 180 none none = Except.ok (315/2) := by
  unfold bearing_from_bbox normalize_angle_deg fmod
  have hfloor : (⌊(180 + (50 - (200:ℕ) / 2) * (90 / (200:ℕ)) : ℝ) / 360⌋ : ℤ) = 0 := by
    norm_num
  norm_num [hfloor]

/-- Claim C1 counterexample: for bbox `{x:0, y:0, w:100, h:100}` the center
column is `u = 50`; with `imageWidth = 200`, `hfovDeg = 90`, `heading = 180`
and no intrinsics, `bearing_from_bbox` returns `157.5`, not `180.0`: the
bbox center sits 50 px left of the image center, so `delta_yaw = -22.5°`. -/
theorem bearing_from_bbox_c1_counterexample :
    (bbox_center ⟨0, 0, 100, 100⟩).1 = 50
    ∧ bearing_from_bbox 50 200 (some 90) 180 none none = Except.ok (315/2)
    ∧ (315/2 : ℝ) ≠ 180 := by
  refine ⟨?_, bearing_c1_eval, by norm_num⟩
  unfold bbox_center
  norm_num

/-- Claim C1 (amended): for the request bbox `{x:0, y:0, w:100, h:100}` with
`imageWidth = 200`, `hfovDeg = 90`, `heading = 180` and no intrinsics, the
bbox horizontal center is `u = 50` and `bearing_from_bbox(u, 200, 90, 180)`
returns exactly `157.5` (`delta_yaw = (50 - 100) * 90/200 = -22.5`). -/
theorem bearing_from_bbox_center_value :
    bearing_from_bbox ((bbox_center ⟨0, 0, 100, 100⟩).1) 200 (some 90) 180
      none none = Except.ok (315/2) := by
  have hu : (bbox_center ⟨0, 0, 100, 100⟩).1 = 50 := by
    unfold bbox_center
    norm_num
  rw [hu]
  exact bearing_c1_eval

theorem acquire_step_preserves (rl : RateLimiterCfg) (st : LimiterState)
    (c : AcquireCall) (hrate : 0 ≤ rl.rate) (htok : 0 < c.tokens)
    (hcap : c.tokens ≤ rl.capacity) (hinv : TokensInRange rl st)
    (hts : TimestampsLE st c.now) :
    TokensInRange rl (acquire_step rl st c).1
    ∧ TimestampsLE (acquire_step rl st c).1 c.now := by
  have hcap0 : 0 ≤ rl.capacity := le_trans (le_of_lt htok) hcap
  unfold acquire_step
  by_cases hguard : rl.capacity < c.tokens
  · exact absurd hcap (not_le_of_lt hguard)
  · simp only [if_neg hguard]
    set last := (st.timestamps c.key).getD c.now with hlast
    set stored := (st.tokens c.key).getD rl.capacity with hstored
    set available := min rl.capacity (stored + (c.now - last) * rl.rate)
      with havail
    have hstored_range : 0 ≤ stored ∧ stored ≤ rl.capacity := by
      rw [hstored]
      cases htk : st.tokens c.key with
      | none => exact ⟨hcap0, le_refl _⟩
      | some v => exact hinv c.key v htk
    have hlast_le : last ≤ c.now := by
      rw [hlast]
      cases hstamp : st.timestamps c.key with
      | none => exact le_refl _
      | some u => exact hts c.key u hstamp
    have helapsed : 0 ≤ (c.now - last) * rl.rate :=
      mul_nonneg (by linarith) hrate
    have havail_nonneg : 0 ≤ available := by
      rw [havail]
      exact le_min hcap0 (by linarith [hstored_range.1])
    have havail_le : available ≤ rl.capacity := min_le_left _ _
    by_cases hgrant : c.tokens ≤ available
    · simp only [if_pos hgrant]
      constructor
      · intro k v hkv
        simp only [updateMap] at hkv
        by_cases hk : k = c.key
        · rw [if_pos hk] at hkv
          cases hkv
          constructor
          · linarith
          · linarith
        · rw [if_neg hk] at hkv
          exact hinv k v hkv
      · intro k u hku
        simp only [updateMap] at hku
        by_cases hk : k = c.key
        · rw [if_pos hk] at hku
          cases hku
          exact le_refl _
        · rw [if_neg hk] at hku
          exact hts k u hku
    · simp only [if_neg hgrant]
      constructor
      · intro k v hkv
        simp only [updateMap] at hkv
        by_cases hk : k = c.key
        · rw [if_pos hk] at hkv
          cases hkv
          exact ⟨havail_nonneg, havail_le⟩
        · rw [if_neg hk] at hkv
          exact hinv k v hkv
      · intro k u hku
        simp only [updateMap] at hku
        by_cases hk : k = c.key
        · rw [if_pos hk] at hku
          cases hku
          exact le_refl _
        · rw [if_neg hk] at hku
          exact hts k u hku

theorem acquire_step_preserves_witness :
    TokensInRange ⟨5, 5⟩ (acquire_step ⟨5, 5⟩ initLimiterState ⟨"k", 1, 0⟩).1 :=
  (acquire_step_preserves ⟨5, 5⟩ initLimiterState ⟨"k", 1, 0⟩
    (by norm_num) (by norm_num) (by norm_num)
    (fun _ v h => by cases h) (fun _ u h => by cases h)).1

theorem acquire_run_preserves (rl : RateLimiterCfg) (hrate : 0 ≤ rl.rate) :
    ∀ (calls : List AcquireCall) (st : LimiterState),
      TokensInRange rl st →
      (∀ c ∈ calls, 0 < c.tokens ∧ c.tokens ≤ rl.capacity) →
      (∀ c ∈ calls, TimestampsLE st c.now) →
      List.Chain' (fun a b => a.now ≤ b.now) calls →
      TokensInRange rl (acquire_run rl st calls) := by
  intro calls
  induction calls with
  | nil =>
      intro st hinv _ _ _
      exact hinv
  | cons c rest ih =>
      intro st hinv hbound hts hchain
      have hc := hbound c (List.mem_cons_self c rest)
      have hstep := acquire_step_preserves rl st c hrate hc.1 hc.2 hinv
        (hts c (List.mem_cons_self c rest))
      have hmono : ∀ d ∈ rest, c.now ≤ d.now := by
        haveI : IsTrans AcquireCall (fun a b => a.now ≤ b.now) :=
          ⟨fun _ _ _ hab hbc => le_trans hab hbc⟩
        have hpair := List.chain'_iff_pairwise.mp hchain
        exact (List.pairwise_cons.mp hpair).1
      refine ih (acquire_step rl st c).1 hstep.1
        (fun d hd => hbound d (List.mem_cons_of_mem c hd))
        (fun d hd k u hku => le_trans (hstep.2 k u hku) (hmono d hd))
        (List.Chain'.tail hchain)

theorem acquire_run_preserves_witness :
    TokensInRange ⟨5, 5⟩ (acquire_run ⟨5, 5⟩ initLimiterState [⟨"k", 1, 0⟩]) :=
  acquire_run_preserves ⟨5, 5⟩ (by norm_num) [⟨"k", 1, 0⟩] initLimiterState
    (fun _ v h => by cases h) (by decide)
    (fun _ _ _ u h => by cases h) (List.chain'_singleton _)

/-- Claim C5: along any sequence of `acquire` iterations with
`0 < tokens ≤ capacity`, a nonnegative refill rate, and a monotone clock,
the stored per-key token counts stay within `[0, capacity]` at every step
(that is, after every prefix of the sequence), starting from the empty
state: the refill is clamped to capacity before any debit and a debit only
happens when the requested tokens are available. -/
theorem rate_limiter_tokens_in_range (rl : RateLimiterCfg)
    (calls pre suf : List AcquireCall)
    (hrate : 0 ≤ rl.rate)
    (hbound : ∀ c ∈ calls, 0 < c.tokens ∧ c.tokens ≤ rl.capacity)
    (hchain : List.Chain' (fun a b => a.now ≤ b.now) calls)
    (hsplit : pre ++ suf = calls) :
    TokensInRange rl (acquire_run rl initLimiterState pre) := by
  subst hsplit
  exact acquire_run_preserves rl hrate pre initLimiterState
    (fun _ v h => by cases h)
    (fun c hc => hbound c (List.mem_append_left suf hc))
    (fun _ _ _ u h => by cases h)
    (List.Chain'.left_of_append hchain)

theorem rate_limiter_tokens_in_range_witness :
    TokensInRange ⟨5, 5⟩ (acquire_run ⟨5, 5⟩ initLimiterState [⟨"k", 1, 0⟩]) :=
  rate_limiter_tokens_in_range ⟨5, 5⟩
    [⟨"k", 1, 0⟩, ⟨"k", 2, 1⟩] [⟨"k", 1, 0⟩] [⟨"k", 2, 1⟩]
    (by norm_num) (by decide)
    (List.chain'_cons.mpr ⟨by norm_num, List.chain'_singleton _⟩) rfl

/-- Claim C6: an `acquire` with `tokens > capacity` fails immediately with
`ValueError("tokens requested exceed bucket capacity")`: the outcome is an
error (not a `waitFor` sleep) and the token counts and refill timestamps
are exactly the state passed in, unchanged. -/
theorem acquire_over_capacity_fails_fast (rl : RateLimiterCfg)
    (st : LimiterState) (c : AcquireCall) (h : rl.capacity < c.tokens) :
    acquire_step rl st c =
      (st, Except.error "tokens requested exceed bucket capacity") := by
  unfold acquire_step
  rw [if_pos h]

theorem acquire_over_capacity_fails_fast_witness :
    acquire_step ⟨5, 5⟩ initLimiterState ⟨"k", 6, 0⟩ =
      (initLimiterState, Except.error "tokens requested exceed bucket capacity") :=
  acquire_over_capacity_fails_fast ⟨5, 5⟩ initLimiterState ⟨"k", 6, 0⟩
    (by norm_num)

/-- Claim C4: every outbound attempt of `http_get` is immediately preceded
by a `rate_limiter.acquire` with the caller-supplied key; at most
`MAX_HTTP_RETRIES = 2` retries happen after the first attempt (three
attempts in total); failed non-final attempts are followed by a backoff
sleep of `0.5 * 2 ^ attempt` seconds; and when every attempt fails the
last error is surfaced to the caller. -/
theorem http_get_acquire_retry_backoff {α : Type}
    (outcome : ℕ → Except String α) (key : String) :
    acquire_before_each_attempt key (http_get outcome key).1 = true
    ∧ countAttempts (http_get outcome key).1 ≤ MAX_HTTP_RETRIES + 1
    ∧ (∀ v, outcome 0 = Except.ok v →
        http_get outcome key =
          ([HttpEvent.acquire key, HttpEvent.attemptCall 0], Except.ok v))
    ∧ (∀ e0 v, outcome 0 = Except.error e0 → outcome 1 = Except.ok v →
        http_get outcome key =
          ([HttpEvent.acquire key, HttpEvent.attemptCall 0,
            HttpEvent.sleep (1/2),
            HttpEvent.acquire key, HttpEvent.attemptCall 1], Except.ok v))
    ∧ (∀ e0 e1 v, outcome 0 = Except.error e0 → outcome 1 = Except.error e1 →
        outcome 2 = Except.ok v →
        http_get outcome key =
          ([HttpEvent.acquire key, HttpEvent.attemptCall 0,
            HttpEvent.sleep (1/2),
            HttpEvent.acquire key, HttpEvent.attemptCall 1,
            HttpEvent.sleep 1,
            HttpEvent.acquire key, HttpEvent.attemptCall 2], Except.ok v))
    ∧ (∀ e0 e1 e2, outcome 0 = Except.error e0 → outcome 1 = Except.error e1 →
        outcome 2 = Except.error e2 →
        http_get outcome key =
          ([HttpEvent.acquire key, HttpEvent.attemptCall 0,
            HttpEvent.sleep (1/2),
            HttpEvent.acquire key, HttpEvent.attemptCall 1,
            HttpEvent.sleep 1,
            HttpEvent.acquire key, HttpEvent.attemptCall 2],
           Except.error e2)) := by
  have hb0 : HTTP_BACKOFF_SECONDS * 2 ^ (0:ℕ) = 1/2 := by
    norm_num [HTTP_BACKOFF_SECONDS]
  have hb1 : HTTP_BACKOFF_SECONDS * 2 ^ (1:ℕ) = 1 := by
    norm_num [HTTP_BACKOFF_SECONDS]
  cases h0 : outcome 0 with
  | ok v0 =>
      simp [http_get, http_get_loop, MAX_HTTP_RETRIES, h0,
        acquire_before_each_attempt, countAttempts]
  | error e0 =>
      cases h1 : outcome 1 with
      | ok v1 =>
          simp [http_get, http_get_loop, MAX_HTTP_RETRIES, h0, h1, hb0,
            acquire_before_each_attempt, countAttempts, HTTP_BACKOFF_SECONDS]
      | error e1 =>
          cases h2 : outcome 2 with
          | ok v2 =>
              simp [http_get, http_get_loop, MAX_HTTP_RETRIES, h0, h1, h2,
                hb0, hb1, acquire_before_each_attempt, countAttempts,
                HTTP_BACKOFF_SECONDS]
          | error e2 =>
              simp [http_get, http_get_loop, MAX_HTTP_RETRIES, h0, h1, h2,
                hb0, hb1, acquire_before_each_attempt, countAttempts,
                HTTP_BACKOFF_SECONDS]

theorem http_get_acquire_retry_backoff_witness :
    http_get (fun n => if n = 0 then Except.error "boom" else Except.ok 7) "k" =
      ([HttpEvent.acquire "k", HttpEvent.attemptCall 0, HttpEvent.sleep (1/2),
        HttpEvent.acquire "k", HttpEvent.attemptCall 1], Except.ok 7)
    ∧ acquire_before_each_attempt "k"
        (http_get (fun n => if n = 0 then Except.error "boom"
          else Except.ok 7) "k").1 = true :=
  ⟨(http_get_acquire_retry_backoff
      (fun n => if n = 0 then Except.error "boom" else Except.ok 7)
      "k").2.2.2.1 "boom" 7 rfl rfl,
   (http_get_acquire_retry_backoff
      (fun n => if n = 0 then Except.error "boom" else Except.ok 7) "k").1⟩

/-- Claim C3 counterexample: a 2xx upstream response with a malformed JSON
body makes `reverse_geocode` raise — the `response.json()` call (geo.py
line 375) sits outside the `try` block — contradicting the claim that on
any failure the function returns a degraded `AddressInfo`. -/
theorem reverse_geocode_malformed_body_raises :
    reverse_geocode (UpstreamResult.success none)
      = Except.error "response body is not valid JSON" := rfl

/-- Claim C3 (amended): `reverse_geocode` never propagates a failure of the
HTTP request itself — exhausted retries, transport errors and non-2xx
statuses all yield `AddressInfo` with `display_name = None` and the
diagnostic `error` component — and a 2xx response with a well-formed body
yields the parsed address; only a 2xx response whose body fails JSON
decoding raises out of the function. -/
theorem reverse_geocode_absorbs_http_failures (msg : String)
    (payload : NominatimPayload) :
    reverse_geocode (UpstreamResult.failure msg)
      = Except.ok ⟨none, [("error", msg)]⟩
    ∧ reverse_geocode (UpstreamResult.success (some payload))
      = Except.ok ⟨payload.display_name, payload.address.getD []⟩ :=
  ⟨rfl, rfl⟩

theorem wrap_delta_deg_eq_self (d : ℝ) (h1 : -180 < d) (h2 : d < 180) :
    wrap_delta_deg d = d := by
  have hfloor : (⌊(d + 180) / 360⌋ : ℤ) = 0 := by
    rw [Int.floor_eq_zero_iff]
    constructor
    · exact div_nonneg (by linarith) (by norm_num)
    · rw [div_lt_one (by norm_num)]
      linarith
  unfold wrap_delta_deg fmod
  rw [hfloor]
  norm_num
  intro h
  rw [h] at h1
  exact absurd h1 (lt_irrefl _)

theorem wrap_delta_deg_eq_self_witness : wrap_delta_deg 10 = 10 :=
  wrap_delta_deg_eq_self 10 (by norm_num) (by norm_num)

theorem haversine_zero : haversine_distance 0 0 0 0 = 0 := by
  unfold haversine_distance radians atan2
  norm_num

theorem minBy_mem {β γ : Type} [LinearOrder γ] (f : β → γ) :
    ∀ (xs : List β) (best : β), minBy f best xs ∈ best :: xs := by
  intro xs
  induction xs with
  | nil =>
      intro best
      unfold minBy
      exact List.mem_cons_self best []
  | cons x rest ih =>
      intro best
      unfold minBy
      by_cases h : f x < f best
      · rw [if_pos h]
        exact List.mem_cons_of_mem best (ih x)
      · rw [if_neg h]
        rcases List.mem_cons.mp (ih best) with he | hm
        · exact List.mem_cons.mpr (Or.inl he)
        · exact List.mem_cons_of_mem best (List.mem_cons_of_mem x hm)

theorem minBy_le {β γ : Type} [LinearOrder γ] (f : β → γ) :
    ∀ (xs : List β) (best y : β), y ∈ best :: xs →
      f (minBy f best xs) ≤ f y := by
  intro xs
  induction xs with
  | nil =>
      intro best y hy
      rcases List.mem_cons.mp hy with he | he
      · unfold minBy
        rw [he]
      · exact absurd he (List.not_mem_nil y)
  | cons x rest ih =>
      intro best y hy
      unfold minBy
      by_cases h : f x < f best
      · rw [if_pos h]
        rcases List.mem_cons.mp hy with he | hy2
        · calc f (minBy f x rest) ≤ f x := ih x x (List.mem_cons_self x rest)
            _ ≤ f best := le_of_lt h
            _ = f y := by rw [he]
        · exact ih x y hy2
      · rw [if_neg h]
        rcases List.mem_cons.mp hy with he | hy2
        · have := ih best best (List.mem_cons_self best rest)
          rw [he]
          exact this
        · rcases List.mem_cons.mp hy2 with hex | hyrest
          · calc f (minBy f best rest) ≤ f best :=
                ih best best (List.mem_cons_self best rest)
              _ ≤ f x := le_of_not_lt h
              _ = f y := by rw [hex]
          · exact ih best y (List.mem_cons_of_mem best hyrest)

theorem mapillary_score_c10_eval :
    mapillary_score ⟨some 10, some (0, 0), none⟩ 0 0 0
      = ((10 : ℝ) : WithTop ℝ) := by
  have hw : wrap_delta_deg (0 - 10) = 0 - 10 :=
    wrap_delta_deg_eq_self (0 - 10) (by norm_num) (by norm_num)
  simp only [mapillary_score, Option.getD]
  rw [hw, haversine_zero]
  norm_num

theorem mapillary_score_c40_eval :
    mapillary_score ⟨some 40, some (0, 0), none⟩ 0 0 0
      = ((40 : ℝ) : WithTop ℝ) := by
  have hw : wrap_delta_deg (0 - 40) = 0 - 40 :=
    wrap_delta_deg_eq_self (0 - 40) (by norm_num) (by norm_num)
  simp only [mapillary_score, Option.getD]
  rw [hw, haversine_zero]
  norm_num

/-- Claim C7: reached with a nonempty candidate list, the mapillary selector
returns a candidate minimizing
`|wrapDelta(bearing - compassAngle)| + distance/5`, where a candidate
without a compass angle scores `⊤` (the worst possible score); in
particular, for two candidates at equal (zero) distance whose compass
angles are 10° and 40° off the target bearing, the 10°-off candidate is
selected. -/
theorem mapillary_min_score_selected (bearing_deg lat lon : ℝ)
    (items : List MapillaryItem) (hne : items ≠ []) :
    (∃ best, mapillary_choose bearing_deg lat lon items = some best
      ∧ best ∈ items
      ∧ ∀ item ∈ items,
          mapillary_score best bearing_deg lat lon
            ≤ mapillary_score item bearing_deg lat lon)
    ∧ (∀ item : MapillaryItem, item.compass_angle = none →
        mapillary_score item bearing_deg lat lon = ⊤)
    ∧ mapillary_choose 0 0 0
        [⟨some 10, some (0, 0), none⟩, ⟨some 40, some (0, 0), none⟩]
      = some ⟨some 10, some (0, 0), none⟩ := by
  refine ⟨?_, ?_, ?_⟩
  · cases items with
    | nil => exact absurd rfl hne
    | cons x xs =>
        refine ⟨minBy (fun item => mapillary_score item bearing_deg lat lon) x xs,
          rfl,
          minBy_mem (fun item => mapillary_score item bearing_deg lat lon) xs x,
          ?_⟩
        intro item hitem
        exact minBy_le (fun it => mapillary_score it bearing_deg lat lon)
          xs x item hitem
  · intro item h
    simp [mapillary_score, h]
  · simp only [mapillary_choose, minBy, mapillary_score_c40_eval,
      mapillary_score_c10_eval]
    rw [if_neg (by rw [WithTop.coe_lt_coe]; norm_num :
      ¬ ((40 : ℝ) : WithTop ℝ) < ((10 : ℝ) : WithTop ℝ))]

theorem mapillary_min_score_selected_witness :
    mapillary_choose 0 0 0
        [⟨some 10, some (0, 0), none⟩, ⟨some 40, some (0, 0), none⟩]
      = some ⟨some 10, some (0, 0), none⟩ :=
  (mapillary_min_score_selected 0 0 0
      [⟨some 10, some (0, 0), none⟩, ⟨some 40, some (0, 0), none⟩]
      (by simp)).2.2

theorem normalize_providers_aux_eq :
    ∀ (l acc : List String),
      normalize_providers_aux acc l
        = acc ++ dedupFirst ((l.map String.toLower).filter
            (fun q => decide (q ∈ SUPPORTED_PROVIDERS ∧ q ∉ acc))) := by
  intro l
  induction l with
  | nil =>
      intro acc
      simp [normalize_providers_aux, dedupFirst]
  | cons provider rest ih =>
      intro acc
      unfold normalize_providers_aux
      by_cases hc : provider.toLower ∈ SUPPORTED_PROVIDERS
          ∧ provider.toLower ∉ acc
      · rw [if_pos hc, ih (acc ++ [provider.toLower])]
        have hfilter :
            ((rest.map String.toLower).filter
              (fun q => decide (q ∈ SUPPORTED_PROVIDERS
                ∧ q ∉ acc ++ [provider.toLower])))
            = (((rest.map String.toLower).filter
                (fun q => decide (q ∈ SUPPORTED_PROVIDERS ∧ q ∉ acc))).filter
                (fun y => y ≠ provider.toLower)) := by
          rw [List.filter_filter]
          apply List.filter_congr
          intro a _
          have hiff : (a ∈ SUPPORTED_PROVIDERS ∧ a ∉ acc ++ [provider.toLower])
              ↔ (a ≠ provider.toLower
                  ∧ (a ∈ SUPPORTED_PROVIDERS ∧ a ∉ acc)) := by
            simp only [List.mem_append, List.mem_singleton]
            tauto
          rw [decide_eq_decide.mpr hiff, Bool.decide_and]
        rw [hfilter]
        simp [List.filter_cons, hc.1, hc.2, dedupFirst]
      · rw [if_neg hc, ih acc]
        have hdrop : decide (provider.toLower ∈ SUPPORTED_PROVIDERS
            ∧ provider.toLower ∉ acc) = false := by
          simpa using hc
        simp [List.filter_cons, hdrop]
        rw [if_neg hc]

theorem normalize_providers_eq (ps : List String) :
    normalize_providers ps
      = dedupFirst ((ps.map String.toLower).filter
          (fun q => decide (q ∈ SUPPORTED_PROVIDERS))) := by
  unfold normalize_providers
  rw [normalize_providers_aux_eq]
  rw [List.nil_append]
  congr 1
  apply List.filter_congr
  intro a _
  apply decide_eq_decide.mpr
  simp

/-- Claim C10 counterexample: a request with `image_width = 0` but
`hfov_deg = 90` present fails construction on field validation, so
construction does not fail only when `hfov_deg` is absent and `fx` or `cx`
is absent. -/
theorem validate_request_field_failure_counterexample :
    validate_request
      { image_width := 0, image_height := 100, hfov_deg := some 90,
        camera_lat := 0, camera_lon := 0, camera_heading_deg := 0,
        bbox_x := 0, bbox_y := 0, bbox_w := 1, bbox_h := 1,
        fx := none, fy := none, cx := none, cy := none,
        assumed_distance_m := none, provider_priority := ["google"],
        radius_m := some 50 }
      = Except.error "field validation failed"
    ∧ some (90 : ℚ) ≠ (none : Option ℚ) := by
  exact ⟨rfl, by simp⟩

/-- Claim C10 (amended): `provider_priority` never causes construction to
fail nor affects whether it succeeds.  Given the per-field constraints
hold, construction fails exactly when `hfov_deg` is absent and `fx` or
`cx` is also absent, and on success `provider_priority` is replaced by its
lowercased entries filtered to the supported providers with later
duplicates dropped — first occurrences kept in order, possibly leaving an
empty list.  Construction can additionally fail when a per-field
constraint is violated (for instance a non-positive `image_width`). -/
theorem validate_request_providers_normalized (r : GeoEstimateRequest)
    (hf : field_constraints_ok r = true) :
    ((∃ out, validate_request r = Except.ok out)
      ↔ ¬(r.hfov_deg = none ∧ (r.fx = none ∨ r.cx = none)))
    ∧ (∀ ps : List String,
        ((∃ out, validate_request { r with provider_priority := ps }
            = Except.ok out)
          ↔ (∃ out, validate_request r = Except.ok out)))
    ∧ (∀ out, validate_request r = Except.ok out →
        out.provider_priority
          = dedupFirst ((r.provider_priority.map String.toLower).filter
              (fun q => decide (q ∈ SUPPORTED_PROVIDERS)))) := by
  have hf' : ¬ field_constraints_ok r = false := by
    rw [hf]
    simp
  have hfps : ∀ ps : List String,
      field_constraints_ok { r with provider_priority := ps }
        = field_constraints_ok r := fun _ => rfl
  refine ⟨?_, ?_, ?_⟩
  · unfold validate_request
    rw [if_neg hf']
    by_cases hroot : r.hfov_deg = none ∧ (r.fx = none ∨ r.cx = none)
    · rw [if_pos hroot]
      constructor
      · rintro ⟨out, hout⟩
        exact Except.noConfusion hout
      · intro hn
        exact absurd hroot hn
    · rw [if_neg hroot]
      constructor
      · intro _
        exact hroot
      · intro _
        exact ⟨_, rfl⟩
  · intro ps
    unfold validate_request
    rw [hfps ps, if_neg hf', if_neg hf']
    by_cases hroot : r.hfov_deg = none ∧ (r.fx = none ∨ r.cx = none)
    · rw [if_pos hroot, if_pos hroot]
    · rw [if_neg hroot, if_neg hroot]
      constructor
      · intro _
        exact ⟨_, rfl⟩
      · intro _
        exact ⟨_, rfl⟩
  · intro out hout
    unfold validate_request at hout
    rw [if_neg hf'] at hout
    by_cases hroot : r.hfov_deg = none ∧ (r.fx = none ∨ r.cx = none)
    · rw [if_pos hroot] at hout
      exact Except.noConfusion hout
    · rw [if_neg hroot] at hout
      cases hout
      exact normalize_providers_eq r.provider_priority

theorem validate_request_providers_normalized_witness :
    (∃ out, validate_request
        { sampleRequest with provider_priority := ["MAPILLARY"] }
      = Except.ok out)
    ↔ (∃ out, validate_request sampleRequest = Except.ok out) :=
  (validate_request_providers_normalized sampleRequest (by decide)).2.1
    ["MAPILLARY"]

end GeoRag
